import Mathlib

/-!
Verification of the query-construction and relation-mapping engine of the
`crud` data-mapping library.  The definitions below are shallow embeddings of
the Go source: `Where` and the option types mirror `options.go`,
`DefaultSelectSQL` and the upsert generators mirror `dialect.go` and
`postgres_dialect.go`, the relation mappers mirror `relations` (the
`ManyToOneMapper` / `OneToManyMapper` / `HasOneMapper` implementations), and
`scanRow` mirrors the repository row-scanning loop.
-/

namespace Crud

/-- An argument passed to a query option.  The Go code passes `any` values and
inspects only whether a value is a `string`; everything else is opaque, so we
model arguments as either a string or an opaque (numbered) value. -/
inductive Arg where
  | str (s : String) : Arg
  | val (n : Nat) : Arg
  deriving DecidableEq

/-- The part of the Go `Dialect` interface used by the query builder: the
positional-parameter token generator `Placeholder(idx)`. -/
structure Dialect where
  placeholder : Nat → String

/-- MySQL and SQLite use a single repeated `?` token (`Placeholder` ignores the
index). -/
def questionDialect : Dialect := ⟨fun _ => "?"⟩

/-- PostgreSQL uses numbered tokens `$1`, `$2`, ... -/
def dollarDialect : Dialect := ⟨fun idx => "$" ++ toString idx⟩

/-- The `queryBuilder` accumulator from `options.go`: WHERE / JOIN / ORDER BY
fragments, a single lock clause, limit, offset, positional arguments, and the
attached relation requests (modelled by opaque identifiers). -/
structure QueryBuilder where
  whereClauses : List String := []
  joinClauses : List String := []
  orderByClauses : List String := []
  lockClause : String := ""
  limit : Int := 0
  offset : Int := 0
  args : List Arg := []
  relations : List Nat := []
  deriving DecidableEq

/-- The option values produced by the option constructors in `options.go`.
Each constructor stores exactly the data its Go counterpart stores. -/
inductive WOption where
  | noOp
  | simpleWhere (column : String) (value : Arg)
  | operatorWhere (column operator : String) (value : Arg)
  | rawWhere (clause : String) (args : List Arg)
  | inWhere (column : String) (values : List Arg)
  | likeWhere (column : String) (value : Arg)
  | lock (clause : String)
  | sort (column direction : String)
  | limit (n : Int)
  | offset (n : Int)
  | join (clause : String)
  | subquery (column operator sub : String) (args : List Arg)
  | relation (id : Nat)
  deriving DecidableEq

/-- The marker check `strings.Contains(clause, "?")` from `options.go`,
expressed as a scan over the clause characters. -/
def containsMark (s : String) : Bool := s.data.any (fun c => c = '?')

/-- The `Where(args ...any)` dispatch from `options.go`: empty or non-string
first argument falls back to a no-op; a first string containing `?` selects the
raw-clause option; three arguments with a string second select the operator
option; two arguments select the equality option; anything else is a no-op. -/
def Where (args : List Arg) : WOption :=
  match args with
  | [] => .noOp
  | .val _ :: _ => .noOp
  | .str clause :: rest =>
    if containsMark clause then
      .rawWhere clause rest
    else
      match rest with
      | [.str operator, v] => .operatorWhere clause operator v
      | [v] => .simpleWhere clause v
      | _ => .noOp

/-- The clause-building loop of `rawWhereOption.apply`: walk the clause,
replacing each `?` with the dialect token at the running global argument index
(1-based, offset by the arguments already accumulated), and count the markers
seen so far. -/
def buildRawClause (d : Dialect) (argStart : Nat) : List Char → String → Nat → String × Nat
  | [], acc, counter => (acc, counter)
  | c :: cs, acc, counter =>
    if c = '?' then
      buildRawClause d argStart cs (acc ++ d.placeholder (argStart + counter + 1)) (counter + 1)
    else
      buildRawClause d argStart cs (acc ++ String.singleton c) counter

/-- Specification-side description of the substituted raw clause: the i-th `?`
marker (counting from `i₀`) becomes the dialect token at index
`base + i + 1`. -/
def substMarks (d : Dialect) (base : Nat) : List Char → Nat → String
  | [], _ => ""
  | c :: cs, i =>
    if c = '?' then d.placeholder (base + i + 1) ++ substMarks d base cs (i + 1)
    else String.singleton c ++ substMarks d base cs i

/-- Number of `?` placeholder markers in a clause. -/
def countQuestionMarks (s : String) : Nat :=
  s.data.countP (fun c => c = '?')

/-- The `apply` methods of the option types in `options.go`, acting on the
query builder.  The result pairs the (possibly updated) builder with an
optional error; every Go `apply` that returns an error does so before mutating
the builder, which the pairing makes explicit. -/
def applyOption (d : Dialect) (o : WOption) (qb : QueryBuilder) : QueryBuilder × Option String :=
  match o with
  | .noOp => (qb, none)
  | .simpleWhere column value =>
    ({ qb with
        whereClauses := qb.whereClauses ++ [column ++ " = " ++ d.placeholder (qb.args.length + 1)],
        args := qb.args ++ [value] }, none)
  | .operatorWhere column operator value =>
    ({ qb with
        whereClauses :=
          qb.whereClauses ++ [column ++ " " ++ operator ++ " " ++ d.placeholder (qb.args.length + 1)],
        args := qb.args ++ [value] }, none)
  | .rawWhere clause rawArgs =>
    let built := buildRawClause d qb.args.length clause.data "" 0
    if built.2 ≠ rawArgs.length then
      (qb, some ("mismatched number of placeholders (?) and arguments in Where clause: \x27"
        ++ clause ++ "\x27"))
    else
      ({ qb with
          whereClauses := qb.whereClauses ++ [built.1],
          args := qb.args ++ rawArgs }, none)
  | .inWhere column values =>
    if values.length = 0 then
      (qb, some ("WhereIn option requires at least one value for column \x27" ++ column ++ "\x27"))
    else
      ({ qb with
          whereClauses := qb.whereClauses ++
            [column ++ " IN (" ++
              String.intercalate ","
                ((List.range values.length).map (fun i => d.placeholder (qb.args.length + 1 + i)))
              ++ ")"],
          args := qb.args ++ values }, none)
  | .likeWhere column value =>
    ({ qb with
        whereClauses := qb.whereClauses ++ [column ++ " LIKE " ++ d.placeholder (qb.args.length + 1)],
        args := qb.args ++ [value] }, none)
  | .lock clause => ({ qb with lockClause := clause }, none)
  | .sort column direction =>
    ({ qb with orderByClauses := qb.orderByClauses ++ [column ++ " " ++ direction] }, none)
  | .limit n => ({ qb with limit := n }, none)
  | .offset n => ({ qb with offset := n }, none)
  | .join clause => ({ qb with joinClauses := qb.joinClauses ++ [clause] }, none)
  | .subquery column operator sub sargs =>
    ({ qb with
        whereClauses := qb.whereClauses ++ [column ++ " " ++ operator ++ " (" ++ sub ++ ")"],
        args := qb.args ++ sargs }, none)
  | .relation id => ({ qb with relations := qb.relations ++ [id] }, none)

/-- Argument-list shapes on which `Where` dispatches to the silent no-op: an
empty list, a non-string first argument, or a marker-free first string whose
remaining arguments fit neither the (column, operator, value) nor the
(column, value) shape. -/
def isNoOpShape : List Arg → Bool
  | [] => true
  | .val _ :: _ => true
  | .str clause :: rest =>
    if containsMark clause then false
    else
      match rest with
      | [.str _, _] => false
      | [_] => false
      | _ => true

/-- The function `DefaultSelectSQL` from `dialect.go`: SELECT with optional JOIN, WHERE,
ORDER BY, LIMIT (only when positive), OFFSET (only when positive), and a
trailing lock clause. -/
def DefaultSelectSQL (tableName : String) (cols : List String)
    (joins whereClause orderByClause lockClause : String) (limit offset : Int) : String :=
  let sql := "SELECT " ++ String.intercalate ", " cols ++ " FROM " ++ tableName
  let sql := if joins ≠ "" then sql ++ " " ++ joins else sql
  let sql := if whereClause ≠ "" then sql ++ " WHERE " ++ whereClause else sql
  let sql := if orderByClause ≠ "" then sql ++ " ORDER BY " ++ orderByClause else sql
  let sql := if limit > 0 then sql ++ " LIMIT " ++ toString limit else sql
  let sql := if offset > 0 then sql ++ " OFFSET " ++ toString offset else sql
  if lockClause ≠ "" then sql ++ " " ++ lockClause else sql

/-- Specification-side core of the SELECT statement: everything before the
LIMIT / OFFSET / lock segments. -/
def selectBase (tableName : String) (cols : List String)
    (joins whereClause orderByClause : String) : String :=
  let sql := "SELECT " ++ String.intercalate ", " cols ++ " FROM " ++ tableName
  let sql := if joins ≠ "" then sql ++ " " ++ joins else sql
  let sql := if whereClause ≠ "" then sql ++ " WHERE " ++ whereClause else sql
  if orderByClause ≠ "" then sql ++ " ORDER BY " ++ orderByClause else sql

/-- The conflict-update list built by the loop in `MySQLDialect.UpsertSQL`:
every column other than the primary key contributes `col = VALUES(col)`. -/
def mysqlUpdateClauses (pkColumn : String) (cols : List String) : List String :=
  cols.foldl
    (fun acc col => if col ≠ pkColumn then acc ++ [col ++ " = VALUES(" ++ col ++ ")"] else acc) []

/-- The generator `MySQLDialect.UpsertSQL` from `dialect.go`. -/
def MySQLUpsertSQL (tableName pkColumn : String) (cols : List String) : String :=
  let placeholders := cols.map (fun _ => "?")
  "INSERT INTO " ++ tableName ++ " (" ++ String.intercalate ", " cols ++ ") VALUES ("
    ++ String.intercalate ", " placeholders ++ ") ON DUPLICATE KEY UPDATE "
    ++ String.intercalate ", " (mysqlUpdateClauses pkColumn cols)

/-- The conflict-update list built by the loop in `SQLiteDialect.UpsertSQL`:
every column other than the primary key contributes `col = excluded.col`. -/
def sqliteUpdateClauses (pkColumn : String) (cols : List String) : List String :=
  cols.foldl
    (fun acc col => if col ≠ pkColumn then acc ++ [col ++ " = excluded." ++ col] else acc) []

/-- The generator `SQLiteDialect.UpsertSQL` from `dialect.go`. -/
def SQLiteUpsertSQL (tableName pkColumn : String) (cols : List String) : String :=
  let placeholders := cols.map (fun _ => "?")
  "INSERT INTO " ++ tableName ++ " (" ++ String.intercalate ", " cols ++ ") VALUES ("
    ++ String.intercalate ", " placeholders ++ ") ON CONFLICT(" ++ pkColumn
    ++ ") DO UPDATE SET " ++ String.intercalate ", " (sqliteUpdateClauses pkColumn cols)

/-- The conflict-update list built by the loop in `PostgresDialect.UpsertSQL`:
every column other than the primary key contributes `col = EXCLUDED.col`. -/
def postgresUpdateClauses (pkColumn : String) (cols : List String) : List String :=
  cols.foldl
    (fun acc col => if col ≠ pkColumn then acc ++ [col ++ " = EXCLUDED." ++ col] else acc) []

/-- The generator `PostgresDialect.UpsertSQL` from `postgres_dialect.go`; placeholders are
the numbered tokens `$1 .. $n`. -/
def PostgresUpsertSQL (tableName pkColumn : String) (cols : List String) : String :=
  let placeholders := (List.range cols.length).map (fun i => "$" ++ toString (i + 1))
  "INSERT INTO " ++ tableName ++ " (" ++ String.intercalate ", " cols ++ ") VALUES ("
    ++ String.intercalate ", " placeholders ++ ") ON CONFLICT (" ++ pkColumn
    ++ ") DO UPDATE SET " ++ String.intercalate ", " (postgresUpdateClauses pkColumn cols)

/-- Specification-side list of the non-primary-key columns, in declaration
order. -/
def nonPkCols (pkColumn : String) (cols : List String) : List String :=
  cols.filter (fun col => decide (col ≠ pkColumn))

/-- Assignment generated for a column by the MySQL upsert loop. -/
def mysqlAssign (col : String) : String := col ++ " = VALUES(" ++ col ++ ")"

/-- Assignment generated for a column by the SQLite upsert loop. -/
def sqliteAssign (col : String) : String := col ++ " = excluded." ++ col

/-- Assignment generated for a column by the PostgreSQL upsert loop. -/
def postgresAssign (col : String) : String := col ++ " = EXCLUDED." ++ col

/-- The key-to-record lookup built by the relation mappers (`relatedMap` in the
Go code): records are inserted in fetch order, so a later record with the same
key overwrites an earlier one. -/
def buildLookup {R K : Type} [DecidableEq K] (key : R → K) (related : List R) : K → Option R :=
  related.foldl (fun m r => fun k => if k = key r then some r else m k) (fun _ => none)

/-- The foreign-key grouping built by `OneToManyMapper.Process`
(`groupedRelated` in the Go code): each record is appended to its key's group
in fetch order; absent keys have no group. -/
def buildGroups {R K : Type} [DecidableEq K] (key : R → K) (related : List R) :
    K → Option (List R) :=
  related.foldl
    (fun m r => fun k => if k = key r then some ((m (key r)).getD [] ++ [r]) else m k)
    (fun _ => none)

/-- Structure `ManyToOneMapper` from the relations source.  Callbacks are optional so
that the nil-callback configuration check can be expressed; `SetRelated` is a
user callback whose effect is modelled by recording the attached record in the
result, so only its presence is kept. -/
structure ManyToOneMapper (P R K : Type) where
  Fetcher : Option (List K → Except String (List R))
  GetFK : Option (P → K)
  GetPK : Option (R → K)
  SetRelatedConfigured : Bool

/-- The key-collection loop of `ManyToOneMapper.Process`: gather the non-zero
foreign keys of the parents, skipping values already collected. -/
def collectKeys {P K : Type} [DecidableEq K] [Zero K] (getFK : P → K) (parents : List P) :
    List K :=
  parents.foldl
    (fun keys p =>
      let fk := getFK p
      if fk ≠ 0 then
        if fk ∈ keys then keys else keys ++ [fk]
      else keys)
    []

/-- The function `ManyToOneMapper.Process`: check configuration, collect distinct non-zero
foreign keys, short-circuit when none, fetch in one batch, build the lookup,
and attach the looked-up record to each parent (recorded as the second
component; `none` means the parent is left unattached). -/
def ManyToOneMapper.Process {P R K : Type} [DecidableEq K] [Zero K]
    (m : ManyToOneMapper P R K) (parents : List P) :
    Except String (List (P × Option R)) :=
  match m.Fetcher, m.GetFK, m.GetPK, m.SetRelatedConfigured with
  | some fetcher, some getFK, some getPK, true =>
    let keys := collectKeys getFK parents
    if keys.length = 0 then .ok (parents.map (fun p => (p, none)))
    else
      match fetcher keys with
      | .error e => .error ("failed to fetch related entities for ManyToOne: " ++ e)
      | .ok related =>
        let relatedMap := buildLookup getPK related
        .ok (parents.map (fun p => (p, relatedMap (getFK p))))
  | _, _, _, _ => .error "ManyToOneMapper is not fully configured"

/-- Structure `OneToManyMapper` from the relations source; `SetRelated` receives a slice
of children and is modelled by recording that slice in the result. -/
structure OneToManyMapper (P R K : Type) where
  Fetcher : Option (List K → Except String (List R))
  GetPK : Option (P → K)
  GetFK : Option (R → K)
  SetRelatedConfigured : Bool

/-- The function `OneToManyMapper.Process`: check configuration, collect every parent
primary key (no deduplication), short-circuit when the batch is empty, fetch in
one batch, group children by foreign key, and assign every parent its group —
an explicit empty slice when the parent has no group. -/
def OneToManyMapper.Process {P R K : Type} [DecidableEq K]
    (m : OneToManyMapper P R K) (parents : List P) :
    Except String (List (P × Option (List R))) :=
  match m.Fetcher, m.GetPK, m.GetFK, m.SetRelatedConfigured with
  | some fetcher, some getPK, some getFK, true =>
    let keys := parents.map getPK
    if keys.length = 0 then .ok (parents.map (fun p => (p, none)))
    else
      match fetcher keys with
      | .error e => .error ("failed to fetch related entities for OneToMany: " ++ e)
      | .ok related =>
        let groupedRelated := buildGroups getFK related
        .ok (parents.map (fun p =>
          match groupedRelated (getPK p) with
          | some rels => (p, some rels)
          | none => (p, some [])))
  | _, _, _, _ => .error "OneToManyMapper is not fully configured"

/-- Structure `HasOneMapper` from the relations source. -/
structure HasOneMapper (P R K : Type) where
  Fetcher : Option (List K → Except String (List R))
  GetPK : Option (P → K)
  GetFK : Option (R → K)
  SetRelatedConfigured : Bool

/-- The function `HasOneMapper.Process`: like the one-to-many variant but the lookup keeps a
single record per key and unmatched parents are left unattached. -/
def HasOneMapper.Process {P R K : Type} [DecidableEq K]
    (m : HasOneMapper P R K) (parents : List P) :
    Except String (List (P × Option R)) :=
  match m.Fetcher, m.GetPK, m.GetFK, m.SetRelatedConfigured with
  | some fetcher, some getPK, some getFK, true =>
    let keys := parents.map getPK
    if keys.length = 0 then .ok (parents.map (fun p => (p, none)))
    else
      match fetcher keys with
      | .error e => .error ("failed to fetch related entities for HasOne: " ++ e)
      | .ok related =>
        let relatedMap := buildLookup getFK related
        .ok (parents.map (fun p => (p, relatedMap (getPK p))))
  | _, _, _, _ => .error "HasOneMapper is not fully configured"

/-- Specification-side first-seen deduplication: keep the first occurrence of
every value and drop the later duplicates. -/
def dedupKeepFirst {K : Type} [DecidableEq K] : List K → List K
  | [] => []
  | k :: ks => k :: dedupKeepFirst (ks.filter (fun x => decide (x ≠ k)))
termination_by l => l.length
decreasing_by
  simp only [List.length_cons]
  exact Nat.lt_succ_of_le (List.length_filter_le _ _)

/-- One step of the `Repository.scanRow` loop: a column present in the scan
mapping binds its field as the destination of the row value, a column absent
from the mapping is discarded into a throwaway destination. -/
def scanStep {V : Type} (scanMap : String → Option Nat) (inst : Nat → V) (cv : String × V) :
    Nat → V :=
  match scanMap cv.1 with
  | some fieldIndex => fun j => if j = fieldIndex then cv.2 else inst j
  | none => inst

/-- The function `Repository.scanRow` from the repository source: starting from a freshly
allocated instance (every field at its default), walk the column list paired
with the returned row, binding or discarding each column. -/
def scanRow {V : Type} (columns : List String) (scanMap : String → Option Nat)
    (freshInstance : Nat → V) (row : List V) : Nat → V :=
  (columns.zip row).foldl (scanStep scanMap) freshInstance

/-! Helper lemmas. -/

/-- Folding the scan step over the column/value pairs agrees with searching
the reversed pair list for the first (hence originally last) pair whose column
maps to the field. -/
lemma foldl_scanStep_eq {V : Type} (scanMap : String → Option Nat) :
    ∀ (l : List (String × V)) (m₀ : Nat → V) (j : Nat),
      l.foldl (scanStep scanMap) m₀ j
      = (match l.reverse.find? (fun cv => decide (scanMap cv.1 = some j)) with
         | some cv => cv.2
         | none => m₀ j) := by
  intro l
  induction l with
  | nil => intro m₀ j; rfl
  | cons cv cvs ih =>
    intro m₀ j
    simp only [List.foldl_cons, List.reverse_cons, List.find?_append]
    rw [ih]
    cases h : cvs.reverse.find? (fun cv => decide (scanMap cv.1 = some j)) with
    | some cv' => simp [h]
    | none =>
      simp only [h, Option.none_orElse]
      cases hk : scanMap cv.1 with
      | some k2 =>
        simp only [scanStep, hk, List.find?]
        by_cases hkk : j = k2
        · subst hkk; simp
        · have hkk2 : ¬k2 = j := fun hc => hkk hc.symm
          simp [hkk, hkk2]
      | none => simp [scanStep, hk, List.find?]

/-- Folding last-wins single-record inserts (the `relatedMap` loop) agrees
with searching the reversed fetch list. -/
lemma foldl_lookup_eq {R K : Type} [DecidableEq K] (key : R → K) :
    ∀ (l : List R) (m₀ : K → Option R) (k : K),
      l.foldl (fun m r => fun k2 => if k2 = key r then some r else m k2) m₀ k
      = (match l.reverse.find? (fun r => decide (key r = k)) with
         | some r => some r
         | none => m₀ k) := by
  intro l
  induction l with
  | nil => intro m₀ k; rfl
  | cons r rs ih =>
    intro m₀ k
    simp only [List.foldl_cons, List.reverse_cons, List.find?_append]
    rw [ih]
    cases h : rs.reverse.find? (fun r => decide (key r = k)) with
    | some r' => simp [h]
    | none =>
      simp only [h, Option.none_orElse]
      by_cases hkk : key r = k
      · subst hkk; simp [List.find?]
      · simp [List.find?, hkk, Ne.symm hkk]

/-- The `relatedMap` lookup returns the last fetched record with the given
key, if any. -/
lemma buildLookup_eq {R K : Type} [DecidableEq K] (key : R → K) (related : List R) (k : K) :
    buildLookup key related k = related.reverse.find? (fun r => decide (key r = k)) := by
  rw [buildLookup, foldl_lookup_eq]
  cases related.reverse.find? (fun r => decide (key r = k)) <;> rfl

/-- The grouping map collects, per key, exactly the records carrying that key
in fetch order. -/
lemma foldl_group_eq {R K : Type} [DecidableEq K] (key : R → K) :
    ∀ (l : List R) (m₀ : K → Option (List R)) (k : K),
      (l.foldl
        (fun m r => fun k2 => if k2 = key r then some ((m (key r)).getD [] ++ [r]) else m k2)
        m₀ k).getD []
      = (m₀ k).getD [] ++ l.filter (fun r => decide (key r = k)) := by
  intro l
  induction l with
  | nil => intro m₀ k; simp
  | cons r rs ih =>
    intro m₀ k
    simp only [List.foldl_cons]
    rw [ih]
    by_cases hkk : key r = k
    · subst hkk
      simp [List.filter_cons]
    · simp [List.filter_cons, hkk, Ne.symm hkk]

/-- The grouping map applied to an empty initial map yields the filter of the
fetch list. -/
lemma buildGroups_getD {R K : Type} [DecidableEq K] (key : R → K) (related : List R) (k : K) :
    (buildGroups key related k).getD [] = related.filter (fun r => decide (key r = k)) := by
  rw [buildGroups, foldl_group_eq]
  rfl

/-- A conditional-append fold builds the image of the filtered list. -/
lemma foldl_append_filter {A B : Type} (p : A → Prop) [DecidablePred p] (f : A → B) :
    ∀ (l : List A) (acc : List B),
      l.foldl (fun acc a => if p a then acc ++ [f a] else acc) acc
      = acc ++ (l.filter (fun a => decide (p a))).map f := by
  intro l
  induction l with
  | nil => intro acc; simp
  | cons a as ih =>
    intro acc
    simp only [List.foldl_cons]
    by_cases hp : p a
    · rw [if_pos hp, ih]
      simp [List.filter_cons, hp]
    · rw [if_neg hp, ih]
      simp [List.filter_cons, hp]

/-- The raw-clause building loop substitutes the markers as described by
`substMarks` and returns the number of markers seen. -/
lemma buildRawClause_eq (d : Dialect) (base : Nat) :
    ∀ (cs : List Char) (acc : String) (i : Nat),
      buildRawClause d base cs acc i
      = (acc ++ substMarks d base cs i, i + cs.countP (fun c => decide (c = '?'))) := by
  intro cs
  induction cs with
  | nil => intro acc i; simp [buildRawClause, substMarks]
  | cons c cs ih =>
    intro acc i
    by_cases hc : c = '?'
    · subst hc
      rw [buildRawClause, if_pos rfl, ih]
      simp only [substMarks, List.countP_cons, Prod.mk.injEq, eq_self_iff_true, decide_True,
        if_true]
      constructor
      · rw [String.append_assoc]
      · omega
    · rw [buildRawClause, if_neg hc, ih]
      simp only [substMarks, if_neg hc, List.countP_cons, Prod.mk.injEq]
      constructor
      · rw [String.append_assoc]
      · simp [hc]

/-- Fusion of the key-collection loop: iterating over the parents while
skipping zero keys is the same as folding the membership-guarded insert over
the list of non-zero foreign keys. -/
lemma collectKeys_fuse {P K : Type} [DecidableEq K] [Zero K] (getFK : P → K) :
    ∀ (parents : List P) (acc : List K),
      parents.foldl
        (fun keys p =>
          let fk := getFK p
          if fk ≠ 0 then
            if fk ∈ keys then keys else keys ++ [fk]
          else keys)
        acc
      = ((parents.map getFK).filter (fun k => decide (k ≠ 0))).foldl
          (fun keys fk => if fk ∈ keys then keys else keys ++ [fk]) acc := by
  intro parents
  induction parents with
  | nil => intro acc; rfl
  | cons p ps ih =>
    intro acc
    simp only [List.foldl_cons, List.map_cons, List.filter_cons]
    by_cases h0 : getFK p ≠ 0
    · have hd : decide (getFK p ≠ 0) = true := by simpa using h0
      rw [if_pos h0, if_pos hd, List.foldl_cons]
      exact ih _
    · have hd : ¬(decide (getFK p ≠ 0) = true) := by simpa using h0
      rw [if_neg h0, if_neg hd]
      exact ih _

/-- Equation lemma: first-seen deduplication of the empty list. -/
lemma dedupKeepFirst_nil {K : Type} [DecidableEq K] : dedupKeepFirst ([] : List K) = [] := by
  rw [dedupKeepFirst.eq_def]

/-- Equation lemma: first-seen deduplication keeps the head and drops its later
duplicates. -/
lemma dedupKeepFirst_cons {K : Type} [DecidableEq K] (k : K) (ks : List K) :
    dedupKeepFirst (k :: ks) = k :: dedupKeepFirst (ks.filter (fun x => decide (x ≠ k))) := by
  rw [dedupKeepFirst.eq_def]

/-- The membership-guarded insert fold performs first-seen deduplication. -/
lemma foldl_insert_dedup {K : Type} [DecidableEq K] :
    ∀ (l : List K) (acc : List K),
      l.foldl (fun keys fk => if fk ∈ keys then keys else keys ++ [fk]) acc
      = acc ++ dedupKeepFirst (l.filter (fun x => decide (x ∉ acc))) := by
  intro l
  induction l with
  | nil =>
    intro acc
    simp only [List.foldl_nil, List.filter_nil, dedupKeepFirst_nil, List.append_nil]
  | cons k ks ih =>
    intro acc
    simp only [List.foldl_cons, List.filter_cons]
    by_cases hmem : k ∈ acc
    · rw [if_pos hmem]
      simp only [hmem, not_true, decide_False]
      exact ih acc
    · rw [if_neg hmem]
      simp only [hmem, not_false_iff, decide_True, if_true]
      rw [ih (acc ++ [k]), dedupKeepFirst_cons]
      have hfil : ks.filter (fun x => decide (x ∉ acc ++ [k]))
          = (ks.filter (fun x => decide (x ∉ acc))).filter (fun x => decide (x ≠ k)) := by
        rw [List.filter_filter]
        apply List.filter_congr
        intro x _
        simp [List.mem_append, not_or, and_comm]
      rw [hfil, List.append_assoc]
      rfl

/-- The key-collection loop of the many-to-one mapper produces exactly the
distinct non-zero foreign keys in first-seen order. -/
lemma collectKeys_eq {P K : Type} [DecidableEq K] [Zero K] (getFK : P → K) (parents : List P) :
    collectKeys getFK parents
    = dedupKeepFirst ((parents.map getFK).filter (fun k => decide (k ≠ 0))) := by
  rw [collectKeys, collectKeys_fuse, foldl_insert_dedup]
  simp

/-- Searching the reverse of a list finds the element at the last position
satisfying the predicate. -/
lemma find?_reverse_last {A : Type} (p : A → Bool) :
    ∀ (l : List A) (i : Nat) (hi : i < l.length),
      p (l.get ⟨i, hi⟩) = true →
      (∀ (i2 : Nat) (hi2 : i2 < l.length), i < i2 → p (l.get ⟨i2, hi2⟩) = false) →
      l.reverse.find? p = some (l.get ⟨i, hi⟩) := by
  intro l
  induction l with
  | nil => intro i hi; exact absurd hi (Nat.not_lt_zero i)
  | cons a as ih =>
    intro i hi hp hafter
    rw [List.reverse_cons, List.find?_append]
    cases i with
    | zero =>
      have hnone : as.reverse.find? p = none := by
        rw [List.find?_eq_none]
        intro x hx
        rw [List.mem_reverse] at hx
        obtain ⟨n, hget⟩ := List.mem_iff_get.mp hx
        obtain ⟨nv, hnv⟩ := n
        have hfalse := hafter (nv + 1) (by simpa using hnv) (Nat.succ_pos nv)
        simp only [List.get_cons_succ] at hfalse
        have hfalse2 : p (as.get ⟨nv, hnv⟩) = false := hfalse
        rw [← hget]
        simpa using hfalse2
      rw [hnone]
      simp only [List.get] at hp
      simp [List.find?, hp]
    | succ j =>
      have hj : j < as.length := by simpa using hi
      have hp' : p (as.get ⟨j, hj⟩) = true := by
        simpa using hp
      have hafter' : ∀ (i2 : Nat) (hi2 : i2 < as.length), j < i2 → p (as.get ⟨i2, hi2⟩) = false := by
        intro i2 hi2 hlt
        have := hafter (i2 + 1) (by simpa using hi2) (Nat.succ_lt_succ hlt)
        simpa using this
      rw [ih j hj hp' hafter']
      simp

/-- Appending to the empty string is the identity. -/
lemma string_empty_append (s : String) : "" ++ s = s := by
  cases s with
  | mk data => rfl

/-! Claim theorems. -/

/-- C1: `Where(args...)` resolves by exact precedence.  If the first argument
is a string containing `?`, the option is the raw clause with the markers
replaced left-to-right by the dialect token at the running global argument
index, and applying it fails exactly when the number of markers differs from
the number of remaining arguments.  Otherwise three arguments with a string
second give the (column, operator, value) comparison, two arguments give the
(column, value) equality, and every other shape (empty list, non-string first
argument, or any leftover shape) is a silent no-op that changes nothing and
returns no error. -/
theorem C1_where_dispatch (d : Dialect) (qb : QueryBuilder) (args : List Arg) :
    (∀ clause rest, args = Arg.str clause :: rest → containsMark clause = true →
       Where args = WOption.rawWhere clause rest
       ∧ (countQuestionMarks clause = rest.length →
            applyOption d (Where args) qb =
              ({ qb with
                  whereClauses := qb.whereClauses ++ [substMarks d qb.args.length clause.data 0],
                  args := qb.args ++ rest }, none))
       ∧ (countQuestionMarks clause ≠ rest.length →
            applyOption d (Where args) qb =
              (qb, some ("mismatched number of placeholders (?) and arguments in Where clause: \x27"
                ++ clause ++ "\x27"))))
  ∧ (∀ clause operator v, args = [Arg.str clause, Arg.str operator, v] →
       containsMark clause = false →
       applyOption d (Where args) qb =
         ({ qb with
             whereClauses := qb.whereClauses
               ++ [clause ++ " " ++ operator ++ " " ++ d.placeholder (qb.args.length + 1)],
             args := qb.args ++ [v] }, none))
  ∧ (∀ clause v, args = [Arg.str clause, v] → containsMark clause = false →
       applyOption d (Where args) qb =
         ({ qb with
             whereClauses := qb.whereClauses
               ++ [clause ++ " = " ++ d.placeholder (qb.args.length + 1)],
             args := qb.args ++ [v] }, none))
  ∧ (isNoOpShape args = true → applyOption d (Where args) qb = (qb, none)) := by
  refine ⟨?_, ?_, ?_, ?_⟩
  · intro clause rest harg hq
    subst harg
    have hw : Where (Arg.str clause :: rest) = WOption.rawWhere clause rest := by
      simp [Where, hq]
    refine ⟨hw, ?_, ?_⟩
    · intro hcount
      rw [hw]
      simp only [applyOption, buildRawClause_eq, Nat.zero_add, string_empty_append]
      rw [if_neg]
      intro hne
      exact hne hcount
    · intro hcount
      rw [hw]
      simp only [applyOption, buildRawClause_eq, Nat.zero_add]
      rw [if_pos]
      exact hcount
  · intro clause operator v harg hq
    subst harg
    have hw : Where [Arg.str clause, Arg.str operator, v]
        = WOption.operatorWhere clause operator v := by
      simp [Where, hq]
    rw [hw]
    rfl
  · intro clause v harg hq
    subst harg
    have hw : Where [Arg.str clause, v] = WOption.simpleWhere clause v := by
      cases v <;> simp [Where, hq]
    rw [hw]
    rfl
  · intro hshape
    match args, hshape with
    | [], _ => rfl
    | .val n :: rest, _ => rfl
    | .str clause :: rest, hshape =>
      by_cases hq : containsMark clause
      · simp [isNoOpShape, hq] at hshape
      · match rest, hshape with
        | [], _ =>
          simp [Where, hq, applyOption]
        | [v], hshape =>
          simp [isNoOpShape, hq] at hshape
        | [.str o, v], hshape =>
          simp [isNoOpShape, hq] at hshape
        | [.val n, v], _ =>
          simp [Where, hq, applyOption]
        | a :: b :: c :: t, _ =>
          simp [Where, hq, applyOption]

/-- Witness for C1: a concrete raw clause with two markers and two values
succeeds with the substituted clause; the no-op branch at a concrete
malformed call changes nothing. -/
theorem C1_where_dispatch_witness :
    applyOption questionDialect
        (Where [Arg.str "username = ? OR username = ?", Arg.val 1, Arg.val 2]) {}
      = ({ whereClauses := ["username = ? OR username = ?"],
           args := [Arg.val 1, Arg.val 2] }, none)
    ∧ applyOption questionDialect (Where [Arg.str "username"]) {} = ({}, none) := by
  constructor
  · have h := ((C1_where_dispatch questionDialect {}
        [Arg.str "username = ? OR username = ?", Arg.val 1, Arg.val 2]).1
        "username = ? OR username = ?" [Arg.val 1, Arg.val 2] rfl (by decide)).2.1 (by decide)
    rw [h]
    rfl
  · exact (C1_where_dispatch questionDialect {} [Arg.str "username"]).2.2.2 (by decide)

/-- C8: the membership (IN) option with zero values fails with an
invalid-option error whose message names the column, leaving the query
specification untouched; with one or more values it appends a single
`col IN (...)` fragment holding exactly one placeholder token per value and
appends the values to the argument list. -/
theorem C8_where_in (d : Dialect) (qb : QueryBuilder) (column : String) (values : List Arg) :
    (values = [] →
       applyOption d (WOption.inWhere column values) qb
         = (qb, some ("WhereIn option requires at least one value for column \x27"
             ++ column ++ "\x27"))
       ∧ ∃ pre post, ("WhereIn option requires at least one value for column \x27"
             ++ column ++ "\x27") = pre ++ column ++ post)
  ∧ (values ≠ [] → ∃ phs : List String,
       phs.length = values.length
       ∧ phs = (List.range values.length).map (fun i => d.placeholder (qb.args.length + 1 + i))
       ∧ applyOption d (WOption.inWhere column values) qb
           = ({ qb with
                 whereClauses := qb.whereClauses
                   ++ [column ++ " IN (" ++ String.intercalate "," phs ++ ")"],
                 args := qb.args ++ values }, none)) := by
  constructor
  · intro hnil
    subst hnil
    refine ⟨rfl, "WhereIn option requires at least one value for column \x27", "\x27", ?_⟩
    rw [String.append_assoc]
  · intro hne
    refine ⟨(List.range values.length).map (fun i => d.placeholder (qb.args.length + 1 + i)),
      by simp, rfl, ?_⟩
    simp only [applyOption]
    rw [if_neg]
    simpa using hne

/-- Witness for C8: at a concrete column, zero values produce the error naming
the column and one value produces a single-placeholder IN fragment. -/
theorem C8_where_in_witness :
    applyOption questionDialect (WOption.inWhere "status" []) {}
      = ({}, some "WhereIn option requires at least one value for column \x27status\x27")
    ∧ applyOption questionDialect (WOption.inWhere "status" [Arg.val 7]) {}
      = ({ whereClauses := ["status IN (?)"], args := [Arg.val 7] }, none) := by
  constructor
  · exact ((C8_where_in questionDialect {} "status" []).1 rfl).1
  · obtain ⟨phs, hlen, hval, happ⟩ :=
      (C8_where_in questionDialect {} "status" [Arg.val 7]).2 (by decide)
    rw [happ, hval]
    rfl

/-- C3 counterexample: the claim that two options of the same kind always both
survive fails for `Lock` — the second lock clause replaces the first, which is
gone from the resulting specification (and likewise a second `Limit` replaces
the first). -/
theorem C3_counterexample :
    (applyOption questionDialect
        (WOption.lock "FOR SHARE")
        (applyOption questionDialect (WOption.lock "FOR UPDATE") {}).1).1.lockClause
      = "FOR SHARE"
    ∧ (applyOption questionDialect (WOption.lock "FOR UPDATE") {}).1.lockClause = "FOR UPDATE"
    ∧ (applyOption questionDialect
        (WOption.lock "FOR SHARE")
        (applyOption questionDialect (WOption.lock "FOR UPDATE") {}).1).1.lockClause
      ≠ "FOR UPDATE"
    ∧ (applyOption questionDialect
        (WOption.limit 5)
        (applyOption questionDialect (WOption.limit 3) {}).1).1.limit = 5 := by
  refine ⟨rfl, rfl, ?_, rfl⟩
  decide

/-- C3 (amended): option application is append-only for the WHERE, JOIN,
ORDER BY, argument, and relation accumulators — a later option never removes
or replaces fragments appended by an earlier one — while the lock clause,
limit, and offset are scalar fields on which a later option of the same kind
replaces the earlier value and no other option touches them. -/
theorem C3_append_only (d : Dialect) (o : WOption) (qb qb' : QueryBuilder) (e : Option String)
    (h : applyOption d o qb = (qb', e)) :
    (∃ t, qb'.whereClauses = qb.whereClauses ++ t)
  ∧ (∃ t, qb'.joinClauses = qb.joinClauses ++ t)
  ∧ (∃ t, qb'.orderByClauses = qb.orderByClauses ++ t)
  ∧ (∃ t, qb'.args = qb.args ++ t)
  ∧ (∃ t, qb'.relations = qb.relations ++ t)
  ∧ (qb'.lockClause = qb.lockClause ∨ ∃ c, o = WOption.lock c ∧ qb'.lockClause = c)
  ∧ (qb'.limit = qb.limit ∨ ∃ n, o = WOption.limit n ∧ qb'.limit = n)
  ∧ (qb'.offset = qb.offset ∨ ∃ n, o = WOption.offset n ∧ qb'.offset = n) := by
  cases o with
  | noOp =>
    simp only [applyOption, Prod.mk.injEq] at h
    obtain ⟨h1, -⟩ := h
    subst h1
    exact ⟨⟨[], by simp⟩, ⟨[], by simp⟩, ⟨[], by simp⟩, ⟨[], by simp⟩, ⟨[], by simp⟩,
      Or.inl rfl, Or.inl rfl, Or.inl rfl⟩
  | simpleWhere column value =>
    simp only [applyOption, Prod.mk.injEq] at h
    obtain ⟨h1, -⟩ := h
    subst h1
    exact ⟨⟨_, rfl⟩, ⟨[], by simp⟩, ⟨[], by simp⟩, ⟨_, rfl⟩, ⟨[], by simp⟩,
      Or.inl rfl, Or.inl rfl, Or.inl rfl⟩
  | operatorWhere column operator value =>
    simp only [applyOption, Prod.mk.injEq] at h
    obtain ⟨h1, -⟩ := h
    subst h1
    exact ⟨⟨_, rfl⟩, ⟨[], by simp⟩, ⟨[], by simp⟩, ⟨_, rfl⟩, ⟨[], by simp⟩,
      Or.inl rfl, Or.inl rfl, Or.inl rfl⟩
  | rawWhere clause rawArgs =>
    simp only [applyOption] at h
    split at h
    · simp only [Prod.mk.injEq] at h
      obtain ⟨h1, -⟩ := h
      subst h1
      exact ⟨⟨[], by simp⟩, ⟨[], by simp⟩, ⟨[], by simp⟩, ⟨[], by simp⟩, ⟨[], by simp⟩,
        Or.inl rfl, Or.inl rfl, Or.inl rfl⟩
    · simp only [Prod.mk.injEq] at h
      obtain ⟨h1, -⟩ := h
      subst h1
      exact ⟨⟨_, rfl⟩, ⟨[], by simp⟩, ⟨[], by simp⟩, ⟨_, rfl⟩, ⟨[], by simp⟩,
        Or.inl rfl, Or.inl rfl, Or.inl rfl⟩
  | inWhere column values =>
    simp only [applyOption] at h
    split at h
    · simp only [Prod.mk.injEq] at h
      obtain ⟨h1, -⟩ := h
      subst h1
      exact ⟨⟨[], by simp⟩, ⟨[], by simp⟩, ⟨[], by simp⟩, ⟨[], by simp⟩, ⟨[], by simp⟩,
        Or.inl rfl, Or.inl rfl, Or.inl rfl⟩
    · simp only [Prod.mk.injEq] at h
      obtain ⟨h1, -⟩ := h
      subst h1
      exact ⟨⟨_, rfl⟩, ⟨[], by simp⟩, ⟨[], by simp⟩, ⟨_, rfl⟩, ⟨[], by simp⟩,
        Or.inl rfl, Or.inl rfl, Or.inl rfl⟩
  | likeWhere column value =>
    simp only [applyOption, Prod.mk.injEq] at h
    obtain ⟨h1, -⟩ := h
    subst h1
    exact ⟨⟨_, rfl⟩, ⟨[], by simp⟩, ⟨[], by simp⟩, ⟨_, rfl⟩, ⟨[], by simp⟩,
      Or.inl rfl, Or.inl rfl, Or.inl rfl⟩
  | lock clause =>
    simp only [applyOption, Prod.mk.injEq] at h
    obtain ⟨h1, -⟩ := h
    subst h1
    exact ⟨⟨[], by simp⟩, ⟨[], by simp⟩, ⟨[], by simp⟩, ⟨[], by simp⟩, ⟨[], by simp⟩,
      Or.inr ⟨clause, rfl, rfl⟩, Or.inl rfl, Or.inl rfl⟩
  | sort column direction =>
    simp only [applyOption, Prod.mk.injEq] at h
    obtain ⟨h1, -⟩ := h
    subst h1
    exact ⟨⟨[], by simp⟩, ⟨[], by simp⟩, ⟨_, rfl⟩, ⟨[], by simp⟩, ⟨[], by simp⟩,
      Or.inl rfl, Or.inl rfl, Or.inl rfl⟩
  | limit n =>
    simp only [applyOption, Prod.mk.injEq] at h
    obtain ⟨h1, -⟩ := h
    subst h1
    exact ⟨⟨[], by simp⟩, ⟨[], by simp⟩, ⟨[], by simp⟩, ⟨[], by simp⟩, ⟨[], by simp⟩,
      Or.inl rfl, Or.inr ⟨n, rfl, rfl⟩, Or.inl rfl⟩
  | offset n =>
    simp only [applyOption, Prod.mk.injEq] at h
    obtain ⟨h1, -⟩ := h
    subst h1
    exact ⟨⟨[], by simp⟩, ⟨[], by simp⟩, ⟨[], by simp⟩, ⟨[], by simp⟩, ⟨[], by simp⟩,
      Or.inl rfl, Or.inl rfl, Or.inr ⟨n, rfl, rfl⟩⟩
  | join clause =>
    simp only [applyOption, Prod.mk.injEq] at h
    obtain ⟨h1, -⟩ := h
    subst h1
    exact ⟨⟨[], by simp⟩, ⟨_, rfl⟩, ⟨[], by simp⟩, ⟨[], by simp⟩, ⟨[], by simp⟩,
      Or.inl rfl, Or.inl rfl, Or.inl rfl⟩
  | subquery column operator sub sargs =>
    simp only [applyOption, Prod.mk.injEq] at h
    obtain ⟨h1, -⟩ := h
    subst h1
    exact ⟨⟨_, rfl⟩, ⟨[], by simp⟩, ⟨[], by simp⟩, ⟨_, rfl⟩, ⟨[], by simp⟩,
      Or.inl rfl, Or.inl rfl, Or.inl rfl⟩
  | relation id =>
    simp only [applyOption, Prod.mk.injEq] at h
    obtain ⟨h1, -⟩ := h
    subst h1
    exact ⟨⟨[], by simp⟩, ⟨[], by simp⟩, ⟨[], by simp⟩, ⟨[], by simp⟩, ⟨_, rfl⟩,
      Or.inl rfl, Or.inl rfl, Or.inl rfl⟩

/-- Witness for C3 (amended): a concrete join option appends to the join
fragment list of the empty builder. -/
theorem C3_append_only_witness :
    ∃ t, (applyOption questionDialect (WOption.join "INNER JOIN roles") {}).1.joinClauses
      = ({} : QueryBuilder).joinClauses ++ t :=
  (C3_append_only questionDialect (WOption.join "INNER JOIN roles") {}
    (applyOption questionDialect (WOption.join "INNER JOIN roles") {}).1
    (applyOption questionDialect (WOption.join "INNER JOIN roles") {}).2 rfl).2.1

/-- C4: the generated SELECT statement decomposes into its core followed by
the optional LIMIT, OFFSET, and lock segments; the LIMIT clause is omitted
entirely when the limit is non-positive, the OFFSET clause is omitted entirely
when the offset is non-positive, and a non-empty lock clause is a suffix of
the statement — it comes last, after pagination. -/
theorem C4_select_sql (t : String) (cols : List String) (j w ob lk : String)
    (limit offset : Int) :
    DefaultSelectSQL t cols j w ob lk limit offset
      = selectBase t cols j w ob
        ++ (if limit > 0 then " LIMIT " ++ toString limit else "")
        ++ (if offset > 0 then " OFFSET " ++ toString offset else "")
        ++ (if lk ≠ "" then " " ++ lk else "")
  ∧ (limit ≤ 0 →
       DefaultSelectSQL t cols j w ob lk limit offset
         = selectBase t cols j w ob
           ++ (if offset > 0 then " OFFSET " ++ toString offset else "")
           ++ (if lk ≠ "" then " " ++ lk else ""))
  ∧ (offset ≤ 0 →
       DefaultSelectSQL t cols j w ob lk limit offset
         = selectBase t cols j w ob
           ++ (if limit > 0 then " LIMIT " ++ toString limit else "")
           ++ (if lk ≠ "" then " " ++ lk else ""))
  ∧ (lk ≠ "" → ∃ pre, DefaultSelectSQL t cols j w ob lk limit offset = pre ++ " " ++ lk) := by
  have hmain : DefaultSelectSQL t cols j w ob lk limit offset
      = selectBase t cols j w ob
        ++ (if limit > 0 then " LIMIT " ++ toString limit else "")
        ++ (if offset > 0 then " OFFSET " ++ toString offset else "")
        ++ (if lk ≠ "" then " " ++ lk else "") := by
    simp only [DefaultSelectSQL, selectBase]
    by_cases hl : limit > 0 <;> by_cases ho : offset > 0 <;> by_cases hk : lk ≠ "" <;>
      simp [hl, ho, hk, String.append_empty, String.append_assoc]
  refine ⟨hmain, ?_, ?_, ?_⟩
  · intro hle
    rw [hmain, if_neg (show ¬limit > 0 by omega), String.append_empty]
  · intro hle
    rw [hmain, if_neg (show ¬offset > 0 by omega), String.append_empty]
  · intro hk
    refine ⟨selectBase t cols j w ob
        ++ (if limit > 0 then " LIMIT " ++ toString limit else "")
        ++ (if offset > 0 then " OFFSET " ++ toString offset else ""), ?_⟩
    rw [hmain, if_pos hk]
    simp [String.append_assoc]

/-- Witness for C4: with limit and offset zero and a lock clause present, the
statement has no LIMIT or OFFSET segment and ends with the lock clause. -/
theorem C4_select_sql_witness :
    DefaultSelectSQL "users" ["id", "name"] "" "" "" "FOR UPDATE" 0 0
      = selectBase "users" ["id", "name"] "" "" ""
        ++ (if (0 : Int) > 0 then " LIMIT " ++ toString (0 : Int) else "")
        ++ (if "FOR UPDATE" ≠ "" then " " ++ "FOR UPDATE" else "")
    ∧ ∃ pre, DefaultSelectSQL "users" ["id", "name"] "" "" "" "FOR UPDATE" 0 0
        = pre ++ " " ++ "FOR UPDATE" := by
  constructor
  · exact (C4_select_sql "users" ["id", "name"] "" "" "" "FOR UPDATE" 0 0).2.2.1 (by decide)
  · exact (C4_select_sql "users" ["id", "name"] "" "" "" "FOR UPDATE" 0 0).2.2.2 (by decide)

/-- Strings of the shape `a ++ mid ++ a ++ tail` determine `a` (used to show
the primary-key assignment cannot occur in an update-clause list built from
other columns). -/
lemma wrap_inj (mid tail a b : String)
    (h : a ++ mid ++ a ++ tail = b ++ mid ++ b ++ tail) : a = b := by
  have hd : a.data ++ (mid.data ++ (a.data ++ tail.data))
      = b.data ++ (mid.data ++ (b.data ++ tail.data)) := by
    have hc := congrArg String.data h
    simpa [String.data_append, List.append_assoc] using hc
  have hlen : a.data.length = b.data.length := by
    have hc := congrArg List.length hd
    simp only [List.length_append] at hc
    omega
  have hab := (List.append_inj hd hlen).1
  exact String.ext hab

/-- C5: for each of the three dialects, the conflict-update clause list of the
generated upsert statement is exactly one assignment per non-primary-key
column (in declaration order), it contains an assignment for every column
other than the primary key, it contains no assignment for the primary-key
column, and the full statement is the dialect's insert prefix followed by the
comma-joined clause list. -/
theorem C5_upsert_clauses (t pk : String) (cols : List String) :
    mysqlUpdateClauses pk cols = (nonPkCols pk cols).map mysqlAssign
  ∧ sqliteUpdateClauses pk cols = (nonPkCols pk cols).map sqliteAssign
  ∧ postgresUpdateClauses pk cols = (nonPkCols pk cols).map postgresAssign
  ∧ (∀ c ∈ cols, c ≠ pk →
       mysqlAssign c ∈ mysqlUpdateClauses pk cols
       ∧ sqliteAssign c ∈ sqliteUpdateClauses pk cols
       ∧ postgresAssign c ∈ postgresUpdateClauses pk cols)
  ∧ mysqlAssign pk ∉ mysqlUpdateClauses pk cols
  ∧ sqliteAssign pk ∉ sqliteUpdateClauses pk cols
  ∧ postgresAssign pk ∉ postgresUpdateClauses pk cols
  ∧ MySQLUpsertSQL t pk cols
      = "INSERT INTO " ++ t ++ " (" ++ String.intercalate ", " cols ++ ") VALUES ("
        ++ String.intercalate ", " (cols.map (fun _ => "?")) ++ ") ON DUPLICATE KEY UPDATE "
        ++ String.intercalate ", " (mysqlUpdateClauses pk cols)
  ∧ SQLiteUpsertSQL t pk cols
      = "INSERT INTO " ++ t ++ " (" ++ String.intercalate ", " cols ++ ") VALUES ("
        ++ String.intercalate ", " (cols.map (fun _ => "?")) ++ ") ON CONFLICT(" ++ pk
        ++ ") DO UPDATE SET " ++ String.intercalate ", " (sqliteUpdateClauses pk cols)
  ∧ PostgresUpsertSQL t pk cols
      = "INSERT INTO " ++ t ++ " (" ++ String.intercalate ", " cols ++ ") VALUES ("
        ++ String.intercalate ", " ((List.range cols.length).map (fun i => "$" ++ toString (i + 1)))
        ++ ") ON CONFLICT (" ++ pk ++ ") DO UPDATE SET "
        ++ String.intercalate ", " (postgresUpdateClauses pk cols) := by
  have hmy : mysqlUpdateClauses pk cols = (nonPkCols pk cols).map mysqlAssign := by
    rw [mysqlUpdateClauses, nonPkCols,
      foldl_append_filter (fun col => col ≠ pk) (fun col => col ++ " = VALUES(" ++ col ++ ")")]
    rfl
  have hsq : sqliteUpdateClauses pk cols = (nonPkCols pk cols).map sqliteAssign := by
    rw [sqliteUpdateClauses, nonPkCols,
      foldl_append_filter (fun col => col ≠ pk) (fun col => col ++ " = excluded." ++ col)]
    rfl
  have hpg : postgresUpdateClauses pk cols = (nonPkCols pk cols).map postgresAssign := by
    rw [postgresUpdateClauses, nonPkCols,
      foldl_append_filter (fun col => col ≠ pk) (fun col => col ++ " = EXCLUDED." ++ col)]
    rfl
  have hmem : ∀ c ∈ cols, c ≠ pk → c ∈ nonPkCols pk cols := by
    intro c hc hne
    rw [nonPkCols, List.mem_filter]
    exact ⟨hc, by simpa using hne⟩
  refine ⟨hmy, hsq, hpg, ?_, ?_, ?_, ?_, rfl, rfl, rfl⟩
  · intro c hc hne
    exact ⟨hmy ▸ List.mem_map_of_mem mysqlAssign (hmem c hc hne),
      hsq ▸ List.mem_map_of_mem sqliteAssign (hmem c hc hne),
      hpg ▸ List.mem_map_of_mem postgresAssign (hmem c hc hne)⟩
  · rw [hmy]
    intro hin
    obtain ⟨c, hc, heq⟩ := List.mem_map.mp hin
    have : c = pk := wrap_inj " = VALUES(" ")" c pk heq
    rw [nonPkCols, List.mem_filter] at hc
    exact absurd this (by simpa using hc.2)
  · rw [hsq]
    intro hin
    obtain ⟨c, hc, heq⟩ := List.mem_map.mp hin
    have heq2 : c ++ " = excluded." ++ c ++ "" = pk ++ " = excluded." ++ pk ++ "" := by
      rw [String.append_empty, String.append_empty]
      exact heq
    have : c = pk := wrap_inj " = excluded." "" c pk heq2
    rw [nonPkCols, List.mem_filter] at hc
    exact absurd this (by simpa using hc.2)
  · rw [hpg]
    intro hin
    obtain ⟨c, hc, heq⟩ := List.mem_map.mp hin
    have heq2 : c ++ " = EXCLUDED." ++ c ++ "" = pk ++ " = EXCLUDED." ++ pk ++ "" := by
      rw [String.append_empty, String.append_empty]
      exact heq
    have : c = pk := wrap_inj " = EXCLUDED." "" c pk heq2
    rw [nonPkCols, List.mem_filter] at hc
    exact absurd this (by simpa using hc.2)

/-- Witness for C5: at a concrete table the non-primary-key columns each get
an assignment and the primary key gets none. -/
theorem C5_upsert_clauses_witness :
    mysqlUpdateClauses "id" ["id", "username", "email"]
      = ["username = VALUES(username)", "email = VALUES(email)"]
    ∧ mysqlAssign "username" ∈ mysqlUpdateClauses "id" ["id", "username", "email"]
    ∧ mysqlAssign "id" ∉ mysqlUpdateClauses "id" ["id", "username", "email"] := by
  have h := C5_upsert_clauses "users" "id" ["id", "username", "email"]
  refine ⟨?_, ?_, h.2.2.2.2.1⟩
  · rw [h.1]
    rfl
  · exact ((h.2.2.2.1 "username" (by decide) (by decide)).1)

/-- C2: for a non-empty parent batch whose batched fetch succeeds, the
one-to-many mapper assigns every parent an explicit (non-`none`) collection:
parents without matching children get `some []`, and parents with matches get
exactly the fetched children whose foreign key equals their primary key, so no
parent is left unset. -/
theorem C2_one_to_many (P R K : Type) [DecidableEq K]
    (fetch : List K → Except String (List R)) (getPK : P → K) (getFK : R → K)
    (parents : List P) (related : List R)
    (hne : parents ≠ [])
    (hfetch : fetch (parents.map getPK) = .ok related) :
    OneToManyMapper.Process ⟨some fetch, some getPK, some getFK, true⟩ parents
      = .ok (parents.map (fun p =>
          (p, some (related.filter (fun r => decide (getFK r = getPK p)))))) := by
  simp only [OneToManyMapper.Process]
  rw [if_neg (by simpa using hne), hfetch]
  refine congrArg Except.ok (congrArg (fun f => parents.map f) ?_)
  funext p
  cases hgroup : buildGroups getFK related (getPK p) with
  | some rels =>
    have hrels : rels = related.filter (fun r => decide (getFK r = getPK p)) := by
      have hgd := buildGroups_getD getFK related (getPK p)
      rw [hgroup] at hgd
      simpa using hgd
    simp only
    rw [hrels]
  | none =>
    have hnil : ([] : List R) = related.filter (fun r => decide (getFK r = getPK p)) := by
      have hgd := buildGroups_getD getFK related (getPK p)
      rw [hgroup] at hgd
      simpa using hgd
    simp only
    rw [← hnil]

/-- Witness for C2: two parents, one with two children and one with none; the
childless parent receives an explicit empty collection. -/
theorem C2_one_to_many_witness :
    OneToManyMapper.Process
        (⟨some (fun _ => Except.ok [(1, 10), (1, 11)]), some (fun p => p),
          some (fun r => r.1), true⟩ : OneToManyMapper Nat (Nat × Nat) Nat) [1, 2]
      = .ok [(1, some [(1, 10), (1, 11)]), (2, some [])] := by
  have h := C2_one_to_many Nat (Nat × Nat) Nat (fun _ => Except.ok [(1, 10), (1, 11)])
      (fun p => p) (fun r => r.1) [1, 2] [(1, 10), (1, 11)] (by decide) rfl
  rw [h]
  rfl

/-- C6: the many-to-one mapper passes the fetcher exactly the distinct
non-zero foreign keys of the parents in first-seen order; when that key list
is empty the fetcher is never consulted (the result holds for every fetcher)
and `Process` succeeds leaving every parent unattached; and on a successful
fetch every parent whose foreign key matches a fetched record's primary key is
attached that record while the rest stay unattached, without error. -/
theorem C6_many_to_one (P R K : Type) [DecidableEq K] [Zero K]
    (fetch : List K → Except String (List R)) (getFK : P → K) (getPK : R → K)
    (parents : List P) :
    collectKeys getFK parents
      = dedupKeepFirst ((parents.map getFK).filter (fun k => decide (k ≠ 0)))
  ∧ (collectKeys getFK parents = [] →
       ManyToOneMapper.Process ⟨some fetch, some getFK, some getPK, true⟩ parents
         = .ok (parents.map (fun p => (p, none))))
  ∧ (∀ related, collectKeys getFK parents ≠ [] →
       fetch (collectKeys getFK parents) = .ok related →
       ManyToOneMapper.Process ⟨some fetch, some getFK, some getPK, true⟩ parents
         = .ok (parents.map (fun p =>
             (p, related.reverse.find? (fun r => decide (getPK r = getFK p)))))) := by
  refine ⟨collectKeys_eq getFK parents, ?_, ?_⟩
  · intro hkeys
    simp only [ManyToOneMapper.Process]
    rw [hkeys]
    simp
  · intro related hne hfetch
    simp only [ManyToOneMapper.Process]
    rw [if_neg (by simpa using hne), hfetch]
    refine congrArg Except.ok (congrArg (fun f => parents.map f) ?_)
    funext p
    rw [buildLookup_eq]

/-- Witness for C6: parents with foreign keys 2, 0, 2, 3 produce the key list
[2, 3] (zero dropped, duplicate dropped, first-seen order), and the parent
with key 0 stays unattached while the others receive their records. -/
theorem C6_many_to_one_witness :
    collectKeys (fun p : Nat => p) [2, 0, 2, 3] = [2, 3]
    ∧ ManyToOneMapper.Process
        (⟨some (fun _ => Except.ok [(2, 20), (3, 30)]), some (fun p => p),
          some (fun r => r.1), true⟩ : ManyToOneMapper Nat (Nat × Nat) Nat) [2, 0, 2, 3]
      = .ok [(2, some (2, 20)), (0, none), (2, some (2, 20)), (3, some (3, 30))] := by
  have h := C6_many_to_one Nat (Nat × Nat) Nat (fun _ => Except.ok [(2, 20), (3, 30)])
      (fun p => p) (fun r => r.1) [2, 0, 2, 3]
  constructor
  · rw [h.1]
    simp [dedupKeepFirst_cons, dedupKeepFirst_nil]
  · have h3 := h.2.2 [(2, 20), (3, 30)] (by decide) rfl
    rw [h3]
    rfl

/-- C7: each of the three relation mappers fails with its configuration error
when any required callback is unset; each wraps a failing fetch in its
relation-kind context; and each short-circuits to success, never consulting
the fetcher and leaving every parent untouched, when the batch is empty or
yields zero keys. -/
theorem C7_relation_errors (P R K : Type) [DecidableEq K] [Zero K] (parents : List P) :
    (∀ m : ManyToOneMapper P R K,
       m.Fetcher = none ∨ m.GetFK = none ∨ m.GetPK = none ∨ m.SetRelatedConfigured = false →
       m.Process parents = .error "ManyToOneMapper is not fully configured")
  ∧ (∀ m : OneToManyMapper P R K,
       m.Fetcher = none ∨ m.GetPK = none ∨ m.GetFK = none ∨ m.SetRelatedConfigured = false →
       m.Process parents = .error "OneToManyMapper is not fully configured")
  ∧ (∀ m : HasOneMapper P R K,
       m.Fetcher = none ∨ m.GetPK = none ∨ m.GetFK = none ∨ m.SetRelatedConfigured = false →
       m.Process parents = .error "HasOneMapper is not fully configured")
  ∧ (∀ (fetch : List K → Except String (List R)) (getFK : P → K) (getPK : R → K) e,
       collectKeys getFK parents ≠ [] →
       fetch (collectKeys getFK parents) = .error e →
       ManyToOneMapper.Process ⟨some fetch, some getFK, some getPK, true⟩ parents
         = .error ("failed to fetch related entities for ManyToOne: " ++ e))
  ∧ (∀ (fetch : List K → Except String (List R)) (getPK : P → K) (getFK : R → K) e,
       parents ≠ [] →
       fetch (parents.map getPK) = .error e →
       OneToManyMapper.Process ⟨some fetch, some getPK, some getFK, true⟩ parents
         = .error ("failed to fetch related entities for OneToMany: " ++ e))
  ∧ (∀ (fetch : List K → Except String (List R)) (getPK : P → K) (getFK : R → K) e,
       parents ≠ [] →
       fetch (parents.map getPK) = .error e →
       HasOneMapper.Process ⟨some fetch, some getPK, some getFK, true⟩ parents
         = .error ("failed to fetch related entities for HasOne: " ++ e))
  ∧ (∀ (fetch : List K → Except String (List R)) (getFK : P → K) (getPK : R → K),
       collectKeys getFK parents = [] →
       ManyToOneMapper.Process ⟨some fetch, some getFK, some getPK, true⟩ parents
         = .ok (parents.map (fun p => (p, none))))
  ∧ (∀ (fetch : List K → Except String (List R)) (getPK : P → K) (getFK : R → K),
       parents = [] →
       OneToManyMapper.Process ⟨some fetch, some getPK, some getFK, true⟩ parents = .ok []
       ∧ HasOneMapper.Process ⟨some fetch, some getPK, some getFK, true⟩ parents = .ok []) := by
  refine ⟨?_, ?_, ?_, ?_, ?_, ?_, ?_, ?_⟩
  · rintro ⟨F, gfk, gpk, s⟩ h
    cases F <;> cases gfk <;> cases gpk <;> cases s <;>
      first
        | rfl
        | (exfalso; rcases h with h | h | h | h <;> simp at h)
  · rintro ⟨F, gpk, gfk, s⟩ h
    cases F <;> cases gpk <;> cases gfk <;> cases s <;>
      first
        | rfl
        | (exfalso; rcases h with h | h | h | h <;> simp at h)
  · rintro ⟨F, gpk, gfk, s⟩ h
    cases F <;> cases gpk <;> cases gfk <;> cases s <;>
      first
        | rfl
        | (exfalso; rcases h with h | h | h | h <;> simp at h)
  · intro fetch getFK getPK e hne hfetch
    simp only [ManyToOneMapper.Process]
    rw [if_neg (by simpa using hne), hfetch]
  · intro fetch getPK getFK e hne hfetch
    simp only [OneToManyMapper.Process]
    rw [if_neg (by simpa using hne), hfetch]
  · intro fetch getPK getFK e hne hfetch
    simp only [HasOneMapper.Process]
    rw [if_neg (by simpa using hne), hfetch]
  · intro fetch getFK getPK hkeys
    simp only [ManyToOneMapper.Process]
    rw [hkeys]
    simp
  · intro fetch getPK getFK hnil
    subst hnil
    exact ⟨rfl, rfl⟩

/-- Witness for C7: an unconfigured mapper fails with the configuration
message, a failing fetch is wrapped with the relation kind, and an empty batch
short-circuits. -/
theorem C7_relation_errors_witness :
    ManyToOneMapper.Process
        (⟨none, some (fun p => p), some (fun r => r.1), true⟩ :
          ManyToOneMapper Nat (Nat × Nat) Nat) [1]
      = .error "ManyToOneMapper is not fully configured"
    ∧ OneToManyMapper.Process
        (⟨some (fun _ => Except.error "boom"), some (fun p => p),
          some (fun r => r.1), true⟩ : OneToManyMapper Nat (Nat × Nat) Nat) [1]
      = .error "failed to fetch related entities for OneToMany: boom"
    ∧ HasOneMapper.Process
        (⟨some (fun _ => Except.ok []), some (fun p => p),
          some (fun r => r.1), true⟩ : HasOneMapper Nat (Nat × Nat) Nat) []
      = .ok [] := by
  have h := C7_relation_errors Nat (Nat × Nat) Nat [1]
  have hempty := C7_relation_errors Nat (Nat × Nat) Nat ([] : List Nat)
  refine ⟨h.1 _ (Or.inl rfl), ?_, ?_⟩
  · exact h.2.2.2.2.1 (fun _ => Except.error "boom") (fun p => p) (fun r => r.1) "boom"
      (by decide) rfl
  · exact (hempty.2.2.2.2.2.2.2 (fun _ => Except.ok []) (fun p => p) (fun r => r.1) rfl).2

/-- C10: when several fetched records share a lookup key, the key-to-record
lookup built by the many-to-one and has-one mappers keeps only the last record
in fetch order, and every parent matching that key is attached that last
record.  (Parents hold independent values in the result, so no attachment is
shared between parents.) -/
theorem C10_duplicate_keys (P R K : Type) [DecidableEq K] [Zero K] :
    (∀ (key : R → K) (related : List R) (k : K),
       buildLookup key related k = related.reverse.find? (fun r => decide (key r = k)))
  ∧ (∀ (fetch : List K → Except String (List R)) (getFK : P → K) (getPK : R → K)
       (parents : List P) (related : List R),
       collectKeys getFK parents ≠ [] →
       fetch (collectKeys getFK parents) = .ok related →
       ManyToOneMapper.Process ⟨some fetch, some getFK, some getPK, true⟩ parents
         = .ok (parents.map (fun p =>
             (p, related.reverse.find? (fun r => decide (getPK r = getFK p))))))
  ∧ (∀ (fetch : List K → Except String (List R)) (getPK : P → K) (getFK : R → K)
       (parents : List P) (related : List R),
       parents ≠ [] →
       fetch (parents.map getPK) = .ok related →
       HasOneMapper.Process ⟨some fetch, some getPK, some getFK, true⟩ parents
         = .ok (parents.map (fun p =>
             (p, related.reverse.find? (fun r => decide (getFK r = getPK p)))))) := by
  refine ⟨fun key related k => buildLookup_eq key related k, ?_, ?_⟩
  · intro fetch getFK getPK parents related hne hfetch
    simp only [ManyToOneMapper.Process]
    rw [if_neg (by simpa using hne), hfetch]
    refine congrArg Except.ok (congrArg (fun f => parents.map f) ?_)
    funext p
    rw [buildLookup_eq]
  · intro fetch getPK getFK parents related hne hfetch
    simp only [HasOneMapper.Process]
    rw [if_neg (by simpa using hne), hfetch]
    refine congrArg Except.ok (congrArg (fun f => parents.map f) ?_)
    funext p
    rw [buildLookup_eq]

/-- Witness for C10: two fetched records share key 1; both parents with that
key are attached the later record (1, 99), not the earlier (1, 10). -/
theorem C10_duplicate_keys_witness :
    HasOneMapper.Process
        (⟨some (fun _ => Except.ok [(1, 10), (1, 99)]), some (fun p => p),
          some (fun r => r.1), true⟩ : HasOneMapper Nat (Nat × Nat) Nat) [1, 1]
      = .ok [(1, some (1, 99)), (1, some (1, 99))]
    ∧ buildLookup (fun r : Nat × Nat => r.1) [(1, 10), (1, 99)] 1 = some (1, 99) := by
  have h := C10_duplicate_keys Nat (Nat × Nat) Nat
  constructor
  · have h3 := h.2.2 (fun _ => Except.ok [(1, 10), (1, 99)]) (fun p => p) (fun r => r.1)
      [1, 1] [(1, 10), (1, 99)] (by decide) rfl
    rw [h3]
    rfl
  · rw [h.1 (fun r : Nat × Nat => r.1) [(1, 10), (1, 99)] 1]
    rfl

/-- C9: row scanning starts from a freshly allocated instance and pairs the
column list with the row.  Fields targeted by no mapped column keep their
fresh default — columns absent from the mapping are discarded and never
affect any field — and a field targeted by a mapped column receives the row
value bound at that column's position (the last such position when several
columns target the same field). -/
theorem C9_scan_row (V : Type) (columns : List String) (scanMap : String → Option Nat)
    (fresh : Nat → V) (row : List V) :
    (∀ j, (∀ c ∈ columns, scanMap c ≠ some j) → scanRow columns scanMap fresh row j = fresh j)
  ∧ (∀ j, scanRow columns scanMap fresh row j
       = (match (columns.zip row).reverse.find? (fun cv => decide (scanMap cv.1 = some j)) with
          | some cv => cv.2
          | none => fresh j))
  ∧ (∀ (i j : Nat) (hi : i < (columns.zip row).length),
       scanMap ((columns.zip row).get ⟨i, hi⟩).1 = some j →
       (∀ (i2 : Nat) (hi2 : i2 < (columns.zip row).length), i < i2 →
          scanMap ((columns.zip row).get ⟨i2, hi2⟩).1 ≠ some j) →
       scanRow columns scanMap fresh row j = ((columns.zip row).get ⟨i, hi⟩).2) := by
  have hchar : ∀ j, scanRow columns scanMap fresh row j
      = (match (columns.zip row).reverse.find? (fun cv => decide (scanMap cv.1 = some j)) with
         | some cv => cv.2
         | none => fresh j) := by
    intro j
    exact foldl_scanStep_eq scanMap (columns.zip row) fresh j
  refine ⟨?_, hchar, ?_⟩
  · intro j hnone
    rw [hchar j]
    have hfind : (columns.zip row).reverse.find? (fun cv => decide (scanMap cv.1 = some j))
        = none := by
      rw [List.find?_eq_none]
      intro cv hcv
      rw [List.mem_reverse] at hcv
      obtain ⟨c, v⟩ := cv
      have hc := (List.of_mem_zip hcv).1
      simpa using hnone c hc
    rw [hfind]
  · intro i j hi hmap hafter
    rw [hchar j]
    have hfind := find?_reverse_last (fun cv => decide (scanMap cv.1 = some j))
      (columns.zip row) i hi (by simpa using hmap)
      (by
        intro i2 hi2 hlt
        simpa using hafter i2 hi2 hlt)
    rw [hfind]

/-- Witness for C9: three columns, the third absent from the mapping; the
mapped fields receive their row values, the unmapped field keeps its default,
and the third column's value is discarded. -/
theorem C9_scan_row_witness :
    scanRow ["id", "name", "extra"]
        (fun c => if c = "id" then some 0 else if c = "name" then some 1 else none)
        (fun _ => 0) [5, 7, 9] 2 = 0
    ∧ scanRow ["id", "name", "extra"]
        (fun c => if c = "id" then some 0 else if c = "name" then some 1 else none)
        (fun _ => 0) [5, 7, 9] 0 = 5 := by
  have h := C9_scan_row Nat ["id", "name", "extra"]
      (fun c => if c = "id" then some 0 else if c = "name" then some 1 else none)
      (fun _ => 0) [5, 7, 9]
  constructor
  · exact h.1 2 (by decide)
  · exact h.2.2 0 0 (by decide) (by decide) (by decide)

end Crud
